import Mathlib

/-!
Shallow embedding of the ColdMailBot-api repository (emailservice.js, server.js).

External collaborators (the filesystem, the CSV parser, nodemailer's SMTP
transport, the JS regex engine, and the HTTP layer) are modelled at their
interfaces: the transport is a pair of oracles (verify outcome, per-attempt
send outcome), the regex matches performed by loadConfig are passed in as
their capture results, and the sequence of observable side effects of a
request (transport verification, transport send calls, injected sleeps, and
Server-Sent-Events writes) is recorded as an explicit action trace.
Machine-level details that no statement here depends on (timestamps in
outcome records, the rendered mail body of the server route) are omitted;
control flow, counters, result records and event payload fields are modelled
field by field from the source.
-/

/-- Character class of the JavaScript regex token `\s` (whitespace). -/
def isJsSpace (c : Char) : Bool :=
  c.val = 0x09 || c.val = 0x0a || c.val = 0x0b || c.val = 0x0c || c.val = 0x0d ||
  c.val = 0x20 || c.val = 0xa0 || c.val = 0x1680 ||
  (0x2000 ≤ c.val && c.val ≤ 0x200a) ||
  c.val = 0x2028 || c.val = 0x2029 || c.val = 0x202f || c.val = 0x205f ||
  c.val = 0x3000 || c.val = 0xfeff

/-- Character class `[^\s@]` used on both sides of the `@` in the email regex. -/
def isLocalChar (c : Char) : Bool := !(isJsSpace c) && !(c == '@')

/-- Split a character list on a separator character (every occurrence),
keeping empty segments, as `String.prototype.split` would. -/
def splitOnChar (sep : Char) : List Char → List (List Char)
  | [] => [[]]
  | c :: cs =>
    let r := splitOnChar sep cs
    if c == sep then [] :: r
    else match r with
      | [] => [[c]]
      | h :: t => (c :: h) :: t

/-- server.js `isValidEmail`: test against `^[^\s@]+@[^\s@]+\.[^\s@]+$`.
The anchored regex matches exactly the strings of the form `L@D` where `L`
is a nonempty run of `[^\s@]` characters (hence the string holds exactly one
`@`, giving exactly two split segments) and `D` is a nonempty run of
`[^\s@]` characters containing a `.` that is neither its first nor its last
character (the split of `D` as `X.Y` with `X`, `Y` nonempty runs of
`[^\s@]`, dots being themselves `[^\s@]` characters). -/
def isValidEmail (s : String) : Bool :=
  match splitOnChar '@' s.toList with
  | [l, d] =>
    !(l.isEmpty) && l.all isLocalChar &&
    d.all isLocalChar && ((d.drop 1).dropLast.contains '.')
  | _ => false

/-- JavaScript truthiness of an optional string value: `undefined` and the
empty string are falsy, every other string is truthy. -/
def truthy : Option String → Bool
  | none => false
  | some s => !(s == "")

/-- Index of the first occurrence of `pat` in a character list, if any
(the StringIndexOf search that `String.prototype.replace` performs for a
string pattern). -/
def occursIdx (pat : List Char) : List Char → Option Nat
  | [] => if pat.isPrefixOf ([] : List Char) then some 0 else none
  | c :: cs =>
    if pat.isPrefixOf (c :: cs) then some 0
    else (occursIdx pat cs).map (· + 1)

/-- ECMAScript GetSubstitution for a string pattern: scanning the
replacement text, expand the dollar form that the character `\x24` opens —
`\x24\x24` to a dollar sign, `\x24&` to the matched substring, `\x24` plus
`\x60` to the part of the subject before the match, `\x24` plus `\x27` to
the part after it; every other character, and a dollar sign in any other
position (including the digit and angle-bracket forms, since a string
pattern has no capture groups and no named captures), passes through
verbatim. -/
def getSubstitution (matched before after : List Char) : List Char → List Char
  | [] => []
  | [c] => [c]
  | c :: d :: rest =>
    if c == '$' then
      if d == '$' then '$' :: getSubstitution matched before after rest
      else if d == '&' then matched ++ getSubstitution matched before after rest
      else if d == '\x60' then before ++ getSubstitution matched before after rest
      else if d == '\x27' then after ++ getSubstitution matched before after rest
      else c :: getSubstitution matched before after (d :: rest)
    else c :: getSubstitution matched before after (d :: rest)

/-- JavaScript `String.prototype.replace` with a string pattern: find the
first occurrence of `pat`, then return the text before it, the replacement
expanded by GetSubstitution, and the text after it; return the string
unchanged when `pat` does not occur. -/
def replaceFirst (s pat rep : String) : String :=
  match occursIdx pat.toList s.toList with
  | none => s
  | some i =>
    ⟨s.toList.take i
      ++ getSubstitution pat.toList (s.toList.take i)
          (s.toList.drop (i + pat.toList.length)) rep.toList
      ++ s.toList.drop (i + pat.toList.length)⟩

/-- Variables fed to `personalize` in emailservice.js (`hr_name`, `company`,
`sender_name`, `sender_email`). -/
structure Vars where
  hr_name : String
  company : String
  sender_name : String
  sender_email : String
deriving DecidableEq

/-- emailservice.js `personalize`: four chained `String.replace` calls, in
source order `{hr_name}`, `{company}`, `{sender_name}`, `{sender_email}`,
each replacing only the first occurrence of its token. -/
def personalize (template : String) (vars : Vars) : String :=
  replaceFirst
    (replaceFirst
      (replaceFirst
        (replaceFirst template "{hr_name}" vars.hr_name)
        "{company}" vars.company)
      "{sender_name}" vars.sender_name)
    "{sender_email}" vars.sender_email

/-- Configuration extracted by emailservice.js `loadConfig`. -/
structure Config where
  subjectTemplate : String
  bodyTemplate : String
  senderName : String
  delay : Nat
deriving DecidableEq

/-- Results of the four regex matches `loadConfig` runs over the markdown
file's content; the regex engine is an external collaborator, so each field
holds the raw captured group (`none` when the pattern does not match).
`delayDigits` carries the `parseInt` of the `(\d+)` capture, which always
parses. -/
structure RawMatches where
  subjectMatch : Option String
  bodyMatch : Option String
  senderName : Option String
  delayDigits : Option Nat
deriving DecidableEq

/-- JavaScript `String.prototype.trim`: strip the JS whitespace class
(Unicode spaces and line terminators included) from both ends. -/
def jsTrim (s : String) : String :=
  ⟨((s.toList.dropWhile isJsSpace).reverse.dropWhile isJsSpace).reverse⟩

/-- emailservice.js `loadConfig`: trim each captured block and fall back to a
hardcoded default for every missing piece. The sender name uses JavaScript
`||`, so an empty trimmed capture also falls back to "Anonymous". -/
def loadConfig (m : RawMatches) : Config :=
  { subjectTemplate :=
      match m.subjectMatch with
      | some s => jsTrim s
      | none => "Internship Application - {company}"
    bodyTemplate :=
      match m.bodyMatch with
      | some s => jsTrim s
      | none => "Dear {hr_name},\n\nI am interested in {company}."
    senderName :=
      match m.senderName with
      | some s => if jsTrim s == "" then "Anonymous" else jsTrim s
      | none => "Anonymous"
    delay :=
      match m.delayDigits with
      | some d => d
      | none => 3 }

/-- A CSV contact row consumed by emailservice.js `sendEmails`. -/
structure Contact where
  name : String
  email : String
  company : String
deriving DecidableEq

/-- A JSON contact entry received by the server.js `/api/send-emails` route;
each field may be absent (`none`). -/
structure RawContact where
  name : Option String
  email : Option String
  company : Option String
deriving DecidableEq

/-- One entry of the server route's `results` array (the `sentAt`/`failedAt`
wall-clock timestamps are not modelled). -/
structure Outcome where
  contact : String
  email : String
  company : String
  status : String
  error : Option String
deriving DecidableEq

/-- The Server-Sent-Events payloads written by the `/api/send-emails` route,
tagged as in the source by their `type` discriminator. -/
inductive SseEvent
  | connected (totalContacts : Nat)
  | progress (contact email company : String) (current total successful failed : Nat)
  | sendErrorEvt (contact email company message : String) (current total : Nat)
  | complete (successful failed total : Nat) (results : List Outcome)
  | fatalError (message : String)
deriving DecidableEq

/-- Observable actions of one request, in chronological order: the transport
verification call, each transport send call (attempt index and recipient),
each injected inter-send sleep (milliseconds), and each SSE write. -/
inductive Act
  | verify
  | send (idx : Nat) (rcpt : String)
  | sleep (ms : Nat)
  | write (e : SseEvent)
deriving DecidableEq

/-- The mail transport collaborator: outcome of `transporter.verify()` and of
the `transporter.sendMail` call of each loop iteration (`none` = resolves,
`some msg` = rejects with an error whose `.message` is `msg`). -/
structure Transport where
  verifyError : Option String
  sendError : Nat → Option String

/-- Final state of the server route's per-contact loop: the `successful` and
`failed` counters, the `results` array, and the actions the loop performed. -/
structure LoopOut where
  successful : Nat
  failed : Nat
  results : List Outcome
  acts : List Act
deriving DecidableEq

/-- The per-contact loop of the `/api/send-emails` route (server.js lines
338-410), started at loop index `i` with counters `s`, `f`. Each iteration
writes a `progress` event, calls `transporter.sendMail`, on success pushes a
success record and increments `successful`, on rejection catches the error,
pushes a failed record carrying the message, writes an `error` event and
increments `failed`; when further contacts remain (`i < contacts.length - 1`
in the source, i.e. the remainder list is nonempty) it sleeps 2000 ms. -/
def campaignLoop (tr : Transport) (total : Nat) : Nat → Nat → Nat → List RawContact → LoopOut
  | _, s, f, [] => ⟨s, f, [], []⟩
  | i, s, f, c :: rest =>
    let nm := c.name.getD ""
    let em := c.email.getD ""
    let co := c.company.getD ""
    let pw := Act.write (.progress nm em co (i + 1) total s f)
    let sl : List Act := if rest.isEmpty then [] else [Act.sleep 2000]
    match tr.sendError i with
    | none =>
      let t := campaignLoop tr total (i + 1) (s + 1) f rest
      ⟨t.successful, t.failed,
        ⟨nm, em, co, "success", none⟩ :: t.results,
        pw :: Act.send i em :: (sl ++ t.acts)⟩
    | some msg =>
      let t := campaignLoop tr total (i + 1) s (f + 1) rest
      ⟨t.successful, t.failed,
        ⟨nm, em, co, "failed", some msg⟩ :: t.results,
        pw :: Act.send i em :: Act.write (.sendErrorEvt nm em co msg (i + 1) total) :: (sl ++ t.acts)⟩

/-- The contacts-format validation loop of the route (server.js lines
291-308): return the first error, checking missing fields before email
format, or `none` when every contact passes. -/
def validateContacts : Nat → List RawContact → Option String
  | _, [] => none
  | i, c :: rest =>
    if !(truthy c.name) || !(truthy c.email) || !(truthy c.company) then
      some ("Invalid contact at index " ++ toString i ++
        ". Each contact must have name, email, and company fields.")
    else if !(isValidEmail (c.email.getD "")) then
      some ("Invalid email format for contact: " ++ c.email.getD "")
    else validateContacts (i + 1) rest

/-- The route's effective batch limit `parseInt(process.env.MAX_EMAILS_PER_REQUEST) || 50`:
an unset or unparsable variable gives `none`, and JavaScript `||` also maps a
parsed 0 to the default 50. -/
def effectiveMax : Option Nat → Nat
  | none => 50
  | some n => if n == 0 then 50 else n

/-- Body of a `/api/send-emails` request; a missing field or (for `contacts`)
a non-array value is `none`. -/
structure RequestBody where
  gmail_email : Option String
  gmail_password : Option String
  contacts : Option (List RawContact)
deriving DecidableEq

/-- How the route concludes: an early JSON error response (status plus
`error` string), or a committed SSE stream (whose writes are in the trace). -/
inductive HandlerResult
  | json (status : Nat) (error : String)
  | sse
deriving DecidableEq

/-- The `/api/send-emails` route handler (server.js lines 257-444): field
validation, contacts-array validation, batch limit, per-contact validation,
`transporter.verify()` (whose rejection is caught by the outer catch with
headers not yet sent, yielding the status-500 JSON error), then the SSE
stream: `connected` event, the per-contact loop, and the final `complete`
event. Returns the result paired with the chronological action trace. -/
def handleSendEmails (envMax : Option Nat) (tr : Transport) (body : RequestBody) :
    HandlerResult × List Act :=
  if !(truthy body.gmail_email) || !(truthy body.gmail_password) then
    (.json 400 "Gmail email and app password are required", [])
  else
    match body.contacts with
    | none => (.json 400 "Contacts array is required and must not be empty", [])
    | some contacts =>
      if contacts.isEmpty then
        (.json 400 "Contacts array is required and must not be empty", [])
      else
        let maxEmails := effectiveMax envMax
        if contacts.length > maxEmails then
          (.json 400 ("Maximum " ++ toString maxEmails ++
            " emails allowed per request. You provided " ++
            toString contacts.length ++ " contacts."), [])
        else
          match validateContacts 0 contacts with
          | some msg => (.json 400 msg, [])
          | none =>
            match tr.verifyError with
            | some msg => (.json 500 ("Error sending emails: " ++ msg), [Act.verify])
            | none =>
              let r := campaignLoop tr contacts.length 0 0 0 contacts
              (.sse,
                Act.verify
                  :: Act.write (.connected contacts.length)
                  :: (r.acts ++ [Act.write (.complete r.successful r.failed contacts.length r.results)]))

/-- Aggregate returned by emailservice.js `sendEmails`. -/
structure SendSummary where
  total : Nat
  success : Nat
  fail : Nat
  failedEmails : List String
deriving DecidableEq

/-- State produced by the emailservice.js send loop. -/
structure SendLoopOut where
  success : Nat
  fail : Nat
  failedEmails : List String
  acts : List Act
deriving DecidableEq

/-- The per-contact loop of emailservice.js `sendEmails` (lines 70-98):
attempt the send, on success increment `success`, on a caught error
increment `fail` and push the contact's email onto `failedEmails`; when this
is not the last contact (`i < contacts.length - 1`, i.e. the remainder list
is nonempty) sleep `config.delay * 1000` milliseconds. The rendered subject
and body (via `personalize`) are pure and do not affect control flow, so the
send action records the attempt index and recipient. -/
def sendLoop (delayMs : Nat) (send : Nat → Option String) : Nat → List Contact → SendLoopOut
  | _, [] => ⟨0, 0, [], []⟩
  | i, c :: rest =>
    let t := sendLoop delayMs send (i + 1) rest
    let sl : List Act := if rest.isEmpty then [] else [Act.sleep delayMs]
    match send i with
    | none => ⟨t.success + 1, t.fail, t.failedEmails, Act.send i c.email :: (sl ++ t.acts)⟩
    | some _ => ⟨t.success, t.fail + 1, c.email :: t.failedEmails, Act.send i c.email :: (sl ++ t.acts)⟩

/-- emailservice.js `sendEmails` (lines 48-101) after config load and CSV
read: run the loop and return `{ total: contacts.length, success, fail,
failedEmails }`, paired with the loop's action trace. -/
def sendEmails (cfg : Config) (send : Nat → Option String) (contacts : List Contact) :
    SendSummary × List Act :=
  let r := sendLoop (cfg.delay * 1000) send 0 contacts
  (⟨contacts.length, r.success, r.fail, r.failedEmails⟩, r.acts)

/-- Duration of a sleep action, `none` for every other action. -/
def sleepDur : Act → Option Nat
  | .sleep ms => some ms
  | _ => none

/-- Whether an action is a transport send call. -/
def isSend : Act → Bool
  | .send _ _ => true
  | _ => false

/-- Whether an action is the transport send call of attempt index `j`. -/
def isSendAt (j : Nat) : Act → Bool
  | .send k _ => k == j
  | _ => false

/-- Whether an action is a `progress` event write whose 1-based `current`
field equals `pos`. -/
def isProgressAt (pos : Nat) : Act → Bool
  | .write (.progress _ _ _ cur _ _ _) => cur == pos
  | _ => false

/-- Whether the route concluded with an early JSON error response. -/
def isRejected : HandlerResult → Bool
  | .json _ _ => true
  | .sse => false

/-- Number of transport successes among attempt indices `i, i+1, ..., i+j-1`. -/
def succCnt (tr : Transport) (i : Nat) : Nat → Nat
  | 0 => 0
  | j + 1 => succCnt tr i j + (if tr.sendError (i + j) = none then 1 else 0)

/-- Number of transport failures among attempt indices `i, i+1, ..., i+j-1`. -/
def failCnt (tr : Transport) (i : Nat) : Nat → Nat
  | 0 => 0
  | j + 1 => failCnt tr i j + (if tr.sendError (i + j) = none then 0 else 1)

/-- Modelled from the spec: the condition of §4.2 under which a campaign
request is rejected by structural validation — the contact list is absent or
not an array, or empty, or some entry is missing `name`, `email` or
`company`, or some entry's email fails the address pattern. Stated from the
spec's words, to be compared with the route's behaviour. -/
def specContactListInvalid : Option (List RawContact) → Bool
  | none => true
  | some cs => cs.isEmpty || cs.any (fun c =>
      !(truthy c.name) || !(truthy c.email) || !(truthy c.company) ||
      !(isValidEmail (c.email.getD "")))

/-- A contact entry that passes the route's structural validation: all three
fields truthy and the email matching the address pattern. -/
def validContact (c : RawContact) : Bool :=
  truthy c.name && truthy c.email && truthy c.company && isValidEmail (c.email.getD "")

/-- A replacement text without a dollar sign undergoes no substitution:
GetSubstitution inserts it verbatim. -/
theorem getSubstitution_no_dollar (matched before after : List Char) :
    ∀ l : List Char, l.all (fun ch => !(ch == '$')) = true →
      getSubstitution matched before after l = l
  | [] => fun _ => by simp [getSubstitution]
  | [c] => fun _ => by simp [getSubstitution]
  | c :: d :: rest => fun h => by
    rw [List.all_cons, Bool.and_eq_true] at h
    have h1 : (c == '$') = false := by simpa using h.1
    have h2 : ((d :: rest).all (fun ch => !(ch == '$'))) = true := h.2
    simp only [getSubstitution, h1, Bool.false_eq_true, if_false]
    rw [getSubstitution_no_dollar matched before after (d :: rest) h2]

/-- A string in which the pattern does not occur is returned unchanged. -/
theorem replaceFirst_not_occurs (s pat rep : String)
    (h : occursIdx pat.toList s.toList = none) : replaceFirst s pat rep = s := by
  unfold replaceFirst
  rw [h]

/-- C5 (amended): personalize replaces, for each of the four placeholder
tokens that occurs in the template, only the first occurrence — the prefix
before it and everything after it, later duplicate occurrences included,
are kept verbatim — and the inserted text is the corresponding variable's
value itself whenever that value contains no dollar sign (a value holding a
JavaScript replacement pattern is first expanded by GetSubstitution); a
template containing none of the four tokens (any unrecognized placeholder
text included) is returned unchanged; and rendering
"Dear {hr_name}, re {company}." with hr_name Sam and company Acme yields
"Dear Sam, re Acme." whatever the sender variables are. The function is
total, hence pure with no failure modes. -/
theorem personalize_first_occurrence_only :
    (∀ (pat rep s : String),
      rep.toList.all (fun ch => !(ch == '$')) = true →
      replaceFirst s pat rep =
        match occursIdx pat.toList s.toList with
        | none => s
        | some i => ⟨s.toList.take i ++ rep.toList ++ s.toList.drop (i + pat.toList.length)⟩)
  ∧ (∀ (t : String) (v : Vars),
      occursIdx "{hr_name}".toList t.toList = none →
      occursIdx "{company}".toList t.toList = none →
      occursIdx "{sender_name}".toList t.toList = none →
      occursIdx "{sender_email}".toList t.toList = none →
      personalize t v = t)
  ∧ (∀ (sn se : String),
      personalize "Dear {hr_name}, re {company}." ⟨"Sam", "Acme", sn, se⟩ = "Dear Sam, re Acme.") := by
  refine ⟨?_, ?_, ?_⟩
  · intro pat rep s hrep
    cases hO : occursIdx pat.toList s.toList with
    | none =>
      unfold replaceFirst
      rw [hO]
    | some i =>
      unfold replaceFirst
      rw [hO]
      show (⟨s.toList.take i
          ++ getSubstitution pat.toList (s.toList.take i)
              (s.toList.drop (i + pat.toList.length)) rep.toList
          ++ s.toList.drop (i + pat.toList.length)⟩ : String)
        = ⟨s.toList.take i ++ rep.toList ++ s.toList.drop (i + pat.toList.length)⟩
      rw [getSubstitution_no_dollar _ _ _ _ hrep]
  · intro t v h1 h2 h3 h4
    show replaceFirst (replaceFirst (replaceFirst (replaceFirst t "{hr_name}" v.hr_name)
      "{company}" v.company) "{sender_name}" v.sender_name) "{sender_email}" v.sender_email = t
    rw [replaceFirst_not_occurs _ _ _ h1, replaceFirst_not_occurs _ _ _ h2,
      replaceFirst_not_occurs _ _ _ h3, replaceFirst_not_occurs _ _ _ h4]
  · intro sn se
    show replaceFirst (replaceFirst (replaceFirst (replaceFirst
      "Dear {hr_name}, re {company}." "{hr_name}" "Sam") "{company}" "Acme")
      "{sender_name}" sn) "{sender_email}" se = "Dear Sam, re Acme."
    rw [show replaceFirst "Dear {hr_name}, re {company}." "{hr_name}" "Sam"
        = "Dear Sam, re {company}." by decide]
    rw [show replaceFirst "Dear Sam, re {company}." "{company}" "Acme"
        = "Dear Sam, re Acme." by decide]
    rw [replaceFirst_not_occurs "Dear Sam, re Acme." "{sender_name}" sn (by decide)]
    rw [replaceFirst_not_occurs "Dear Sam, re Acme." "{sender_email}" se (by decide)]

/-- Witness for C5: an hr_name value free of dollar signs is inserted
verbatim in place of the token's first occurrence, later duplicates kept;
and a template with only an unrecognized placeholder is returned verbatim. -/
theorem personalize_first_occurrence_only_witness :
    replaceFirst "ab{hr_name}cd{hr_name}" "{hr_name}" "Sam" =
      (match occursIdx "{hr_name}".toList "ab{hr_name}cd{hr_name}".toList with
        | none => "ab{hr_name}cd{hr_name}"
        | some i =>
          (⟨"ab{hr_name}cd{hr_name}".toList.take i ++ "Sam".toList
            ++ "ab{hr_name}cd{hr_name}".toList.drop (i + "{hr_name}".toList.length)⟩ : String))
  ∧ personalize "plain {unknown} text" ⟨"a", "b", "c", "d"⟩ = "plain {unknown} text" :=
  ⟨personalize_first_occurrence_only.1 "{hr_name}" "Sam" "ab{hr_name}cd{hr_name}" (by decide),
   personalize_first_occurrence_only.2.1 "plain {unknown} text" ⟨"a", "b", "c", "d"⟩
    (by decide) (by decide) (by decide) (by decide)⟩

/-- C5 counterexample: the program does not always replace a token with the
corresponding variable's value — an hr_name value consisting of the
JavaScript replacement pattern for the matched substring makes
String.replace re-insert the token itself, so the render leaves the
template unchanged instead of inserting the value. -/
theorem personalize_first_occurrence_only_counterexample :
    personalize "{hr_name}" ⟨"$&", "Acme", "SN", "se@x.co"⟩ = "{hr_name}"
  ∧ ¬(personalize "{hr_name}" ⟨"$&", "Acme", "SN", "se@x.co"⟩ = "$&") :=
  ⟨by decide, by decide⟩

/-- C10: personalize applies its four substitutions sequentially in the
fixed source order hr_name, company, sender_name, sender_email, not
simultaneously: an hr_name value that itself contains the later token
"{company}" gets that token replaced by the company value, while a company
value containing the earlier token "{hr_name}" keeps it verbatim. -/
theorem personalize_sequential_order :
    personalize "Hi {hr_name}" ⟨"X {company}", "Acme", "SN", "se@x.co"⟩ = "Hi X Acme"
  ∧ personalize "Hi {company}" ⟨"Bob", "Y {hr_name}", "SN", "se@x.co"⟩ = "Hi Y {hr_name}" :=
  ⟨by decide, by decide⟩

/-- C7: loadConfig substitutes a hardcoded default for each missing piece of
the template source — the default subject and body strings, sender name
"Anonymous", delay 3 — and, being total, never fails solely due to missing
template content. -/
theorem loadConfig_defaults :
    (∀ m : RawMatches, m.subjectMatch = none →
      (loadConfig m).subjectTemplate = "Internship Application - {company}")
  ∧ (∀ m : RawMatches, m.bodyMatch = none →
      (loadConfig m).bodyTemplate = "Dear {hr_name},\n\nI am interested in {company}.")
  ∧ (∀ m : RawMatches, m.senderName = none → (loadConfig m).senderName = "Anonymous")
  ∧ (∀ m : RawMatches, m.delayDigits = none → (loadConfig m).delay = 3) := by
  refine ⟨?_, ?_, ?_, ?_⟩ <;> intro m h <;> simp [loadConfig, h]

/-- Witness for C7: a wholly absent or unparsable template source yields all
four defaults. -/
theorem loadConfig_defaults_witness :
    (loadConfig ⟨none, none, none, none⟩).subjectTemplate = "Internship Application - {company}"
  ∧ (loadConfig ⟨none, none, none, none⟩).bodyTemplate = "Dear {hr_name},\n\nI am interested in {company}."
  ∧ (loadConfig ⟨none, none, none, none⟩).senderName = "Anonymous"
  ∧ (loadConfig ⟨none, none, none, none⟩).delay = 3 :=
  ⟨loadConfig_defaults.1 _ rfl, loadConfig_defaults.2.1 _ rfl,
   loadConfig_defaults.2.2.1 _ rfl, loadConfig_defaults.2.2.2 _ rfl⟩

/-- The final counters of the server loop add the number of processed
contacts to the starting counters. -/
theorem campaignLoop_counts (tr : Transport) (total : Nat) :
    ∀ (cs : List RawContact) (i s f : Nat),
      (campaignLoop tr total i s f cs).successful + (campaignLoop tr total i s f cs).failed
        = s + f + cs.length := by
  intro cs
  induction cs with
  | nil => intro i s f; simp [campaignLoop]
  | cons c rest ih =>
    intro i s f
    cases h : tr.sendError i with
    | none =>
      simp only [campaignLoop, h]
      have := ih (i + 1) (s + 1) f
      simp only [List.length_cons]
      omega
    | some m =>
      simp only [campaignLoop, h]
      have := ih (i + 1) s (f + 1)
      simp only [List.length_cons]
      omega

/-- The server loop produces one result record per contact, in input order,
carrying that contact's identity fields. -/
theorem campaignLoop_results_ids (tr : Transport) (total : Nat) :
    ∀ (cs : List RawContact) (i s f : Nat),
      (campaignLoop tr total i s f cs).results.map (fun o => (o.contact, o.email, o.company))
        = cs.map (fun c => (c.name.getD "", c.email.getD "", c.company.getD "")) := by
  intro cs
  induction cs with
  | nil => intro i s f; simp [campaignLoop]
  | cons c rest ih =>
    intro i s f
    cases h : tr.sendError i with
    | none => simp [campaignLoop, h, ih]
    | some m => simp [campaignLoop, h, ih]

/-- Status and recorded error of each result record of the server loop,
positionally: the j-th record is a success record exactly when the transport
resolves attempt i+j, and otherwise a failed record carrying that attempt's
error message. -/
theorem campaignLoop_statuses (tr : Transport) (total : Nat) :
    ∀ (cs : List RawContact) (i s f : Nat),
      (campaignLoop tr total i s f cs).results.map (fun o => (o.status, o.error)) =
        (List.range cs.length).map (fun j =>
          match tr.sendError (i + j) with
          | none => ("success", (none : Option String))
          | some m => ("failed", some m)) := by
  intro cs
  induction cs with
  | nil => intro i s f; simp [campaignLoop]
  | cons c rest ih =>
    intro i s f
    have hshift : ∀ j : Nat, i + (j + 1) = (i + 1) + j := fun j => by omega
    cases h : tr.sendError i with
    | none =>
      simp only [campaignLoop, h, List.length_cons, List.range_succ_eq_map,
        List.map_cons, List.map_map, Function.comp]
      rw [ih (i + 1) (s + 1) f]
      simp only [Function.comp_def, Nat.succ_eq_add_one, Nat.add_zero, h]
      congr 1
      congr 1
      funext j
      rw [hshift j]
    | some m =>
      simp only [campaignLoop, h, List.length_cons, List.range_succ_eq_map,
        List.map_cons, List.map_map, Function.comp]
      rw [ih (i + 1) s (f + 1)]
      simp only [Function.comp_def, Nat.succ_eq_add_one, Nat.add_zero, h]
      congr 1
      congr 1
      funext j
      rw [hshift j]

/-- The emailservice loop counters always account for every contact. -/
theorem sendLoop_counts (delayMs : Nat) (send : Nat → Option String) :
    ∀ (cs : List Contact) (i : Nat),
      (sendLoop delayMs send i cs).success + (sendLoop delayMs send i cs).fail = cs.length := by
  intro cs
  induction cs with
  | nil => intro i; simp [sendLoop]
  | cons c rest ih =>
    intro i
    cases h : send i with
    | none =>
      simp only [sendLoop, h]
      have := ih (i + 1)
      simp only [List.length_cons]
      omega
    | some m =>
      simp only [sendLoop, h]
      have := ih (i + 1)
      simp only [List.length_cons]
      omega

/-- C1: for every campaign run over a contact list of length N — whatever
the per-contact transport outcomes — the aggregate satisfies
success + fail = N and total = N, and the per-contact result sequence has
exactly N entries, one per contact, in exactly the input contact order: for
the server route's loop (counters, result length, and the result records'
identity fields in input order) and for emailservice.js sendEmails (total
and counters of the returned summary). -/
theorem aggregate_counts_and_order :
    (∀ (tr : Transport) (total : Nat) (cs : List RawContact),
      (campaignLoop tr total 0 0 0 cs).successful + (campaignLoop tr total 0 0 0 cs).failed
          = cs.length
      ∧ (campaignLoop tr total 0 0 0 cs).results.length = cs.length
      ∧ (campaignLoop tr total 0 0 0 cs).results.map (fun o => (o.contact, o.email, o.company))
          = cs.map (fun c => (c.name.getD "", c.email.getD "", c.company.getD "")))
  ∧ (∀ (cfg : Config) (send : Nat → Option String) (cs : List Contact),
      (sendEmails cfg send cs).1.total = cs.length
      ∧ (sendEmails cfg send cs).1.success + (sendEmails cfg send cs).1.fail = cs.length) := by
  constructor
  · intro tr total cs
    refine ⟨?_, ?_, campaignLoop_results_ids tr total cs 0 0 0⟩
    · have := campaignLoop_counts tr total cs 0 0 0
      omega
    · have h := congrArg List.length (campaignLoop_results_ids tr total cs 0 0 0)
      simpa using h
  · intro cfg send cs
    exact ⟨rfl, sendLoop_counts (cfg.delay * 1000) send cs 0⟩

/-- C2: every transport rejection is caught and isolated per contact — the
j-th result record is a failed record carrying exactly that attempt's error
message when the transport rejects attempt j, and a success record when it
resolves, for every j up to the full input length, so one contact's failure
never aborts the loop; concretely, a three-contact campaign whose second
send alone fails yields the complete event with total 3, success 2, fail 1
and outcomes ordered success, failed, success, with contact #3 still
attempted. -/
theorem per_contact_failure_isolated :
    (∀ (tr : Transport) (total : Nat) (cs : List RawContact) (i s f : Nat),
      (campaignLoop tr total i s f cs).results.map (fun o => (o.status, o.error)) =
        (List.range cs.length).map (fun j =>
          match tr.sendError (i + j) with
          | none => ("success", (none : Option String))
          | some m => ("failed", some m)))
  ∧ handleSendEmails none
      ⟨none, fun i => if i == 1 then some "boom" else none⟩
      ⟨some "me@g.co", some "pw",
        some [⟨some "A", some "a@x.co", some "P"⟩,
              ⟨some "B", some "b@x.co", some "Q"⟩,
              ⟨some "C", some "c@x.co", some "R"⟩]⟩ =
    (.sse,
      [Act.verify,
       Act.write (.connected 3),
       Act.write (.progress "A" "a@x.co" "P" 1 3 0 0),
       Act.send 0 "a@x.co",
       Act.sleep 2000,
       Act.write (.progress "B" "b@x.co" "Q" 2 3 1 0),
       Act.send 1 "b@x.co",
       Act.write (.sendErrorEvt "B" "b@x.co" "Q" "boom" 2 3),
       Act.sleep 2000,
       Act.write (.progress "C" "c@x.co" "R" 3 3 1 1),
       Act.send 2 "c@x.co",
       Act.write (.complete 2 1 3
         [⟨"A", "a@x.co", "P", "success", none⟩,
          ⟨"B", "b@x.co", "Q", "failed", some "boom"⟩,
          ⟨"C", "c@x.co", "R", "success", none⟩])]) :=
  ⟨fun tr total cs i s f => campaignLoop_statuses tr total cs i s f, by decide⟩

/-- A list with an element after the hole is nonempty. -/
theorem isEmpty_append_cons {α : Type} (l : List α) (a : α) (r : List α) :
    (l ++ a :: r).isEmpty = false := by cases l <;> rfl

/-- One-step unfolding of the emailservice loop's action trace. -/
theorem sendLoop_acts_cons (delayMs : Nat) (send : Nat → Option String) (i : Nat)
    (c : Contact) (rest : List Contact) :
    (sendLoop delayMs send i (c :: rest)).acts
      = Act.send i c.email ::
        ((if rest.isEmpty then [] else [Act.sleep delayMs])
          ++ (sendLoop delayMs send (i + 1) rest).acts) := by
  cases h : send i <;> simp [sendLoop, h]

/-- One-step unfolding of the server loop's action trace. -/
theorem campaignLoop_acts_cons (tr : Transport) (total i s f : Nat)
    (c : RawContact) (rest : List RawContact) :
    (campaignLoop tr total i s f (c :: rest)).acts
      = Act.write (.progress (c.name.getD "") (c.email.getD "") (c.company.getD "") (i + 1) total s f)
        :: Act.send i (c.email.getD "")
        :: ((match tr.sendError i with
             | none => []
             | some msg =>
               [Act.write (.sendErrorEvt (c.name.getD "") (c.email.getD "") (c.company.getD "") msg (i + 1) total)])
          ++ ((if rest.isEmpty then [] else [Act.sleep 2000])
          ++ (campaignLoop tr total (i + 1)
                (s + (if tr.sendError i = none then 1 else 0))
                (f + (if tr.sendError i = none then 0 else 1)) rest).acts)) := by
  cases h : tr.sendError i <;> simp [campaignLoop, h]

/-- The emailservice loop sleeps exactly once per non-final contact, each
time for the configured duration. -/
theorem sendLoop_sleeps (delayMs : Nat) (send : Nat → Option String) :
    ∀ (cs : List Contact) (i : Nat),
      (sendLoop delayMs send i cs).acts.filterMap sleepDur
        = List.replicate (cs.length - 1) delayMs := by
  intro cs
  induction cs with
  | nil => intro i; simp [sendLoop]
  | cons c rest ih =>
    intro i
    rw [sendLoop_acts_cons delayMs send i c rest]
    simp only [List.filterMap_cons, List.filterMap_append, sleepDur]
    rw [ih (i + 1)]
    cases rest with
    | nil => simp
    | cons r rs => simp [sleepDur, List.replicate_succ]

/-- The server loop sleeps exactly once per non-final contact, each time
for 2000 milliseconds. -/
theorem campaignLoop_sleeps (tr : Transport) (total : Nat) :
    ∀ (cs : List RawContact) (i s f : Nat),
      (campaignLoop tr total i s f cs).acts.filterMap sleepDur
        = List.replicate (cs.length - 1) 2000 := by
  intro cs
  induction cs with
  | nil => intro i s f; simp [campaignLoop]
  | cons c rest ih =>
    intro i s f
    rw [campaignLoop_acts_cons tr total i s f c rest]
    simp only [List.filterMap_cons, List.filterMap_append, sleepDur]
    rw [ih]
    cases h : tr.sendError i with
    | none =>
      cases rest with
      | nil => simp
      | cons r rs => simp [sleepDur, List.replicate_succ]
    | some m =>
      cases rest with
      | nil => simp [sleepDur]
      | cons r rs => simp [sleepDur, List.replicate_succ]

/-- The last action of the emailservice loop on a nonempty contact list is
the final contact's send attempt: no sleep follows the last contact. -/
theorem sendLoop_last (delayMs : Nat) (send : Nat → Option String) :
    ∀ (cs : List Contact) (c : Contact) (i : Nat),
      (sendLoop delayMs send i (cs ++ [c])).acts.getLast?
        = some (Act.send (i + cs.length) c.email) := by
  intro cs
  induction cs with
  | nil => intro c i; cases h : send i <;> simp [sendLoop, h]
  | cons p ps ih =>
    intro c i
    have iha := ih c (i + 1)
    have hne : (ps ++ [c]).isEmpty = false := isEmpty_append_cons ps c []
    rw [List.cons_append, sendLoop_acts_cons delayMs send i p (ps ++ [c]), hne]
    cases hl : (sendLoop delayMs send (i + 1) (ps ++ [c])).acts with
    | nil => rw [hl] at iha; simp at iha
    | cons q qs =>
      rw [hl] at iha
      simp only [Bool.false_eq_true, if_false, List.singleton_append, List.length_cons]
      rw [List.getLast?_cons_cons, List.getLast?_cons_cons, iha]
      have harith : (i + 1) + ps.length = i + (ps.length + 1) := by omega
      rw [harith]

/-- C6: a campaign over N contacts injects exactly N-1 inter-send delays —
one after each contact except the last (the final action of a nonempty
emailservice run is the last contact's send attempt, never a sleep) — each
of the configured duration (`config.delay` seconds, i.e. `delay * 1000` ms,
for emailservice.js; the route's fixed 2000 ms for server.js), so the total
injected wait is (N-1) * delaySeconds, which is zero when delaySeconds is
zero. -/
theorem inter_send_delays :
    (∀ (cfg : Config) (send : Nat → Option String) (cs : List Contact),
      (sendEmails cfg send cs).2.filterMap sleepDur
        = List.replicate (cs.length - 1) (cfg.delay * 1000))
  ∧ (∀ (cfg : Config) (send : Nat → Option String) (cs : List Contact),
      ((sendEmails cfg send cs).2.filterMap sleepDur).sum
        = (cs.length - 1) * (cfg.delay * 1000))
  ∧ (∀ (cfg : Config) (send : Nat → Option String) (cs : List Contact) (c : Contact),
      (sendEmails cfg send (cs ++ [c])).2.getLast? = some (Act.send cs.length c.email))
  ∧ (∀ (tr : Transport) (total i s f : Nat) (cs : List RawContact),
      (campaignLoop tr total i s f cs).acts.filterMap sleepDur
        = List.replicate (cs.length - 1) 2000) := by
  refine ⟨?_, ?_, ?_, ?_⟩
  · intro cfg send cs
    exact sendLoop_sleeps (cfg.delay * 1000) send cs 0
  · intro cfg send cs
    have h := sendLoop_sleeps (cfg.delay * 1000) send cs 0
    show ((sendLoop (cfg.delay * 1000) send 0 cs).acts.filterMap sleepDur).sum = _
    rw [h, List.sum_replicate, smul_eq_mul]
  · intro cfg send cs c
    have h := sendLoop_last (cfg.delay * 1000) send cs c 0
    rw [Nat.zero_add] at h
    exact h
  · intro tr total i s f cs
    exact campaignLoop_sleeps tr total cs i s f

/-- The effective batch limit is always positive (JavaScript `|| 50` maps 0
back to the default). -/
theorem effectiveMax_pos (e : Option Nat) : 0 < effectiveMax e := by
  cases e with
  | none => decide
  | some n =>
    show 0 < if n == 0 then 50 else n
    split
    · decide
    · rename_i h
      simp at h
      omega

/-- C3: when the transport verification fails after an otherwise valid
request, the whole campaign fails with the single top-level status-500
error; the action trace holds the verification attempt alone, so the
per-contact loop never ran: zero send attempts and zero outcome-bearing
writes. -/
theorem verify_failure_aborts_campaign :
    ∀ (envMax : Option Nat) (tr : Transport) (ge gp : Option String)
      (cs : List RawContact) (msg : String),
      truthy ge = true → truthy gp = true →
      cs.isEmpty = false → ¬(cs.length > effectiveMax envMax) →
      validateContacts 0 cs = none →
      tr.verifyError = some msg →
      handleSendEmails envMax tr ⟨ge, gp, some cs⟩
        = (.json 500 ("Error sending emails: " ++ msg), [Act.verify]) := by
  intro envMax tr ge gp cs msg hge hgp hne hlim hval hver
  simp [handleSendEmails, hge, hgp, hne, hlim, hval, hver]

/-- Witness for C3: a one-contact campaign whose transport rejects
verification with "Invalid login". -/
theorem verify_failure_aborts_campaign_witness :
    handleSendEmails none ⟨some "Invalid login", fun _ => none⟩
      ⟨some "me@g.co", some "pw", some [⟨some "A", some "a@x.co", some "P"⟩]⟩
      = (.json 500 ("Error sending emails: " ++ "Invalid login"), [Act.verify]) :=
  verify_failure_aborts_campaign none ⟨some "Invalid login", fun _ => none⟩
    (some "me@g.co") (some "pw") [⟨some "A", some "a@x.co", some "P"⟩] "Invalid login"
    (by decide) (by decide) (by decide) (by decide) (by decide) rfl

/-- C9: a contact list longer than the effective batch limit (default 50)
makes the whole request fail with the limit-exceeded error before any
processing: the conclusion holds for arbitrary contact entries — valid or
not, so no per-contact validation takes place — and the action trace is
empty: the transport is never verified and no send is attempted. -/
theorem batch_limit_rejects_before_processing :
    (∀ (envMax : Option Nat) (tr : Transport) (ge gp : Option String) (cs : List RawContact),
      truthy ge = true → truthy gp = true →
      cs.length > effectiveMax envMax →
      handleSendEmails envMax tr ⟨ge, gp, some cs⟩
        = (.json 400 ("Maximum " ++ toString (effectiveMax envMax) ++
            " emails allowed per request. You provided " ++
            toString cs.length ++ " contacts."), []))
  ∧ effectiveMax none = 50 := by
  constructor
  · intro envMax tr ge gp cs hge hgp hlim
    have hpos : 0 < effectiveMax envMax := effectiveMax_pos envMax
    have hne : cs.isEmpty = false := by
      cases cs with
      | nil => exfalso; simp at hlim
      | cons a l => rfl
    simp [handleSendEmails, hge, hgp, hne, hlim]
  · rfl

/-- Witness for C9: 51 identical contacts against the default limit. -/
theorem batch_limit_rejects_before_processing_witness :
    handleSendEmails none ⟨none, fun _ => none⟩
      ⟨some "me@g.co", some "pw",
        some (List.replicate 51 ⟨some "A", some "a@x.co", some "P"⟩)⟩
      = (.json 400 ("Maximum " ++ toString (effectiveMax none) ++
          " emails allowed per request. You provided " ++
          toString (List.replicate 51 (⟨some "A", some "a@x.co", some "P"⟩ : RawContact)).length ++
          " contacts."), []) :=
  batch_limit_rejects_before_processing.1 none ⟨none, fun _ => none⟩
    (some "me@g.co") (some "pw") (List.replicate 51 ⟨some "A", some "a@x.co", some "P"⟩)
    (by decide) (by decide) (by decide)

/-- The route's validation loop accepts a contact list exactly when every
entry passes the structural check. -/
theorem validateContacts_none_iff :
    ∀ (cs : List RawContact) (i : Nat),
      validateContacts i cs = none ↔ cs.all validContact = true := by
  intro cs
  induction cs with
  | nil => intro i; simp [validateContacts]
  | cons c rest ih =>
    intro i
    cases hn : truthy c.name <;> cases he : truthy c.email <;> cases hc : truthy c.company <;>
      cases hv : isValidEmail (c.email.getD "") <;>
      simp [validateContacts, validContact, hn, he, hc, hv, ih (i + 1)]

/-- The spec's per-entry rejection disjunction is the negation of the
all-entries-valid conjunction. -/
theorem spec_any_eq_not_all :
    ∀ cs : List RawContact,
      cs.any (fun c => !(truthy c.name) || !(truthy c.email) || !(truthy c.company) ||
        !(isValidEmail (c.email.getD ""))) = !(cs.all validContact) := by
  intro cs
  induction cs with
  | nil => simp
  | cons c rest ih =>
    simp only [List.any_cons, List.all_cons]
    cases hn : truthy c.name <;> cases he : truthy c.email <;> cases hc : truthy c.company <;>
      cases hv : isValidEmail (c.email.getD "") <;>
      simp [validContact, hn, he, hc, hv, ih]

/-- C4: with credentials present, the batch within its limit and a healthy
transport, the route rejects the request before any work — empty action
trace, so zero transport send calls and no partial result — if and only if
the contact list is absent or not an array, or empty, or some entry is
missing name, email or company (absent or empty, the JavaScript falsy
check), or some entry's email fails the address pattern; one bad entry
rejects the whole list, and an all-valid list is never rejected. -/
theorem structural_validation_all_or_nothing :
    ∀ (envMax : Option Nat) (tr : Transport) (body : RequestBody),
      truthy body.gmail_email = true → truthy body.gmail_password = true →
      tr.verifyError = none →
      (∀ cs, body.contacts = some cs → cs.length ≤ effectiveMax envMax) →
      ((isRejected (handleSendEmails envMax tr body).1 = true ↔
          specContactListInvalid body.contacts = true)
        ∧ (specContactListInvalid body.contacts = true →
            (handleSendEmails envMax tr body).2 = [])) := by
  intro envMax tr body hge hgp hver hlim
  cases hb : body.contacts with
  | none =>
    refine ⟨?_, ?_⟩
    · simp [handleSendEmails, hge, hgp, hb, isRejected, specContactListInvalid]
    · intro _
      simp [handleSendEmails, hge, hgp, hb]
  | some cs =>
    cases cs with
    | nil =>
      refine ⟨?_, ?_⟩
      · simp [handleSendEmails, hge, hgp, hb, isRejected, specContactListInvalid]
      · intro _
        simp [handleSendEmails, hge, hgp, hb]
    | cons c rest =>
      have hlen : (c :: rest).length ≤ effectiveMax envMax := hlim _ hb
      have hlen2 : rest.length + 1 ≤ effectiveMax envMax := by simpa using hlen
      have hnotlt : ¬(effectiveMax envMax < rest.length + 1) := by omega
      cases hval : validateContacts 0 (c :: rest) with
      | some msg =>
        have hnall : (c :: rest).all validContact = false := by
          cases hall : (c :: rest).all validContact
          · rfl
          · exfalso
            have hnone := (validateContacts_none_iff (c :: rest) 0).mpr hall
            rw [hnone] at hval
            simp at hval
        have hhandle : handleSendEmails envMax tr body = (.json 400 msg, []) := by
          simp [handleSendEmails, hge, hgp, hb, hnotlt, hval]
        have hinv : specContactListInvalid (some (c :: rest)) = true := by
          show ((c :: rest).isEmpty || _) = true
          rw [spec_any_eq_not_all, hnall]
          simp
        refine ⟨?_, ?_⟩
        · rw [hhandle, hinv]
          simp [isRejected]
        · intro _
          rw [hhandle]
      | none =>
        have hall : (c :: rest).all validContact = true :=
          (validateContacts_none_iff (c :: rest) 0).mp hval
        have hfst : (handleSendEmails envMax tr body).1 = .sse := by
          simp [handleSendEmails, hge, hgp, hb, hnotlt, hval, hver]
        have hinv : specContactListInvalid (some (c :: rest)) = false := by
          show ((c :: rest).isEmpty || _) = false
          rw [spec_any_eq_not_all, hall]
          simp
        refine ⟨?_, ?_⟩
        · rw [hfst, hinv]
          simp [isRejected]
        · intro h
          rw [hinv] at h
          simp at h

/-- Witness for C4: a single entry with a mis-formatted email address makes
the route reject the whole request with an empty action trace. -/
theorem structural_validation_all_or_nothing_witness :
    isRejected (handleSendEmails none ⟨none, fun _ => none⟩
      ⟨some "me@g.co", some "pw", some [⟨some "A", some "bademail", some "P"⟩]⟩).1 = true
  ∧ (handleSendEmails none ⟨none, fun _ => none⟩
      ⟨some "me@g.co", some "pw", some [⟨some "A", some "bademail", some "P"⟩]⟩).2 = [] := by
  have h := structural_validation_all_or_nothing none ⟨none, fun _ => none⟩
    ⟨some "me@g.co", some "pw", some [⟨some "A", some "bademail", some "P"⟩]⟩
    (by decide) (by decide) rfl
    (fun cs hcs => by
      have h2 := Option.some.inj hcs
      cases h2
      decide)
  exact ⟨h.1.mpr (by decide), h.2 (by decide)⟩

/-- Splitting the success count of j+1 attempts at the first attempt. -/
theorem succCnt_shift (tr : Transport) (i : Nat) :
    ∀ j : Nat, succCnt tr i (j + 1)
      = (if tr.sendError i = none then 1 else 0) + succCnt tr (i + 1) j := by
  intro j
  induction j with
  | zero => simp [succCnt]
  | succ j ih =>
    have h1 : succCnt tr i (j + 1 + 1)
        = succCnt tr i (j + 1) + (if tr.sendError (i + (j + 1)) = none then 1 else 0) := rfl
    have h2 : succCnt tr (i + 1) (j + 1)
        = succCnt tr (i + 1) j + (if tr.sendError ((i + 1) + j) = none then 1 else 0) := rfl
    rw [h1, h2, ih]
    have heq : i + (j + 1) = (i + 1) + j := by omega
    rw [heq]
    omega

/-- Splitting the failure count of j+1 attempts at the first attempt. -/
theorem failCnt_shift (tr : Transport) (i : Nat) :
    ∀ j : Nat, failCnt tr i (j + 1)
      = (if tr.sendError i = none then 0 else 1) + failCnt tr (i + 1) j := by
  intro j
  induction j with
  | zero => simp [failCnt]
  | succ j ih =>
    have h1 : failCnt tr i (j + 1 + 1)
        = failCnt tr i (j + 1) + (if tr.sendError (i + (j + 1)) = none then 0 else 1) := rfl
    have h2 : failCnt tr (i + 1) (j + 1)
        = failCnt tr (i + 1) j + (if tr.sendError ((i + 1) + j) = none then 0 else 1) := rfl
    rw [h1, h2, ih]
    have heq : i + (j + 1) = (i + 1) + j := by omega
    rw [heq]
    omega

/-- Every progress event in the loop's trace carries a 1-based position
strictly above the starting loop index, so none matches a position at or
below it. -/
theorem campaignLoop_no_low_progress (tr : Transport) (total : Nat) :
    ∀ (cs : List RawContact) (i s f pos : Nat), pos ≤ i →
      (campaignLoop tr total i s f cs).acts.countP (isProgressAt pos) = 0 := by
  intro cs
  induction cs with
  | nil => intro i s f pos hp; simp [campaignLoop]
  | cons c rest ih =>
    intro i s f pos hp
    have hple : pos ≤ i + 1 := Nat.le_succ_of_le hp
    have hne : ((i + 1) == pos) = false := by
      simp only [beq_eq_false_iff_ne, ne_eq]
      omega
    rw [campaignLoop_acts_cons]
    cases h : tr.sendError i with
    | none =>
      cases rest with
      | nil => simp [List.countP_cons, isProgressAt, hne, campaignLoop, h]
      | cons r rs =>
        simp [List.countP_cons, List.countP_append, isProgressAt, hne, h,
          ih (i + 1) (s + 1) f pos hple]
    | some m =>
      cases rest with
      | nil => simp [List.countP_cons, isProgressAt, hne, campaignLoop, h]
      | cons r rs =>
        simp [List.countP_cons, List.countP_append, isProgressAt, hne, h,
          ih (i + 1) s (f + 1) pos hple]

/-- Every send action in the loop's trace carries an attempt index at or
above the starting loop index, so none matches a lower index. -/
theorem campaignLoop_no_low_send (tr : Transport) (total : Nat) :
    ∀ (cs : List RawContact) (i s f j : Nat), j < i →
      (campaignLoop tr total i s f cs).acts.countP (isSendAt j) = 0 := by
  intro cs
  induction cs with
  | nil => intro i s f j hj; simp [campaignLoop]
  | cons c rest ih =>
    intro i s f j hj
    have hjle : j < i + 1 := Nat.lt_succ_of_lt hj
    have hne : (i == j) = false := by
      simp only [beq_eq_false_iff_ne, ne_eq]
      omega
    rw [campaignLoop_acts_cons]
    cases h : tr.sendError i with
    | none =>
      cases rest with
      | nil => simp [List.countP_cons, isSendAt, hne, campaignLoop]
      | cons r rs =>
        simp [List.countP_cons, List.countP_append, isSendAt, hne, h,
          ih (i + 1) (s + 1) f j hjle]
    | some m =>
      cases rest with
      | nil => simp [List.countP_cons, isSendAt, hne, campaignLoop]
      | cons r rs =>
        simp [List.countP_cons, List.countP_append, isSendAt, hne, h,
          ih (i + 1) s (f + 1) j hjle]

/-- A possibly-suppressed inter-send sleep contributes nothing to a count of
non-sleep actions. -/
theorem countP_sleep_if {p : Act → Bool} (hp : ∀ ms, p (Act.sleep ms) = false)
    (c : Prop) [Decidable c] (ms : Nat) :
    List.countP p (if c then ([] : List Act) else [Act.sleep ms]) = 0 := by
  split
  · simp
  · simp [List.countP_cons, hp]

/-- The trace of a loop run holds exactly one progress event with the
1-based position of each processed contact. -/
theorem campaignLoop_progress_once (tr : Transport) (total : Nat) :
    ∀ (pre : List RawContact) (c : RawContact) (post : List RawContact) (i s f : Nat),
      (campaignLoop tr total i s f (pre ++ c :: post)).acts.countP
        (isProgressAt (i + pre.length + 1)) = 1 := by
  intro pre
  induction pre with
  | nil =>
    intro c post i s f
    simp only [List.nil_append, List.length_nil, Nat.add_zero]
    cases h : tr.sendError i with
    | none =>
      simp only [campaignLoop, h]
      simp only [List.countP_cons, List.countP_append]
      rw [campaignLoop_no_low_progress tr total post (i + 1) (s + 1) f (i + 1) (Nat.le_refl _)]
      rw [countP_sleep_if (fun ms => rfl)]
      simp [isProgressAt]
    | some m =>
      simp only [campaignLoop, h]
      simp only [List.countP_cons, List.countP_append]
      rw [campaignLoop_no_low_progress tr total post (i + 1) s (f + 1) (i + 1) (Nat.le_refl _)]
      rw [countP_sleep_if (fun ms => rfl)]
      simp [isProgressAt]
  | cons p pre' ih =>
    intro c post i s f
    have hres : (pre' ++ c :: post).isEmpty = false := isEmpty_append_cons pre' c post
    have hpos : i + (p :: pre').length + 1 = (i + 1) + pre'.length + 1 := by
      simp only [List.length_cons]
      omega
    rw [hpos]
    have hneP : ((i + 1) == ((i + 1) + pre'.length + 1)) = false := by
      simp only [beq_eq_false_iff_ne, ne_eq]
      omega
    cases h : tr.sendError i with
    | none =>
      simp only [List.cons_append, campaignLoop, List.append_eq, h, hres, Bool.false_eq_true,
        if_false, List.singleton_append]
      simp only [List.countP_cons, List.countP_append, List.singleton_append]
      rw [ih c post (i + 1) (s + 1) f]
      simp [isProgressAt, hneP]
    | some m =>
      simp only [List.cons_append, campaignLoop, List.append_eq, h, hres, Bool.false_eq_true,
        if_false, List.singleton_append]
      simp only [List.countP_cons, List.countP_append, List.singleton_append]
      rw [ih c post (i + 1) s (f + 1)]
      simp [isProgressAt, hneP]

/-- The trace of a loop run holds exactly one send action with the attempt
index of each processed contact. -/
theorem campaignLoop_send_once (tr : Transport) (total : Nat) :
    ∀ (pre : List RawContact) (c : RawContact) (post : List RawContact) (i s f : Nat),
      (campaignLoop tr total i s f (pre ++ c :: post)).acts.countP
        (isSendAt (i + pre.length)) = 1 := by
  intro pre
  induction pre with
  | nil =>
    intro c post i s f
    simp only [List.nil_append, List.length_nil, Nat.add_zero]
    cases h : tr.sendError i with
    | none =>
      simp only [campaignLoop, h]
      simp only [List.countP_cons, List.countP_append]
      rw [campaignLoop_no_low_send tr total post (i + 1) (s + 1) f i (Nat.lt_succ_self _)]
      rw [countP_sleep_if (fun ms => rfl)]
      simp [isSendAt]
    | some m =>
      simp only [campaignLoop, h]
      simp only [List.countP_cons, List.countP_append]
      rw [campaignLoop_no_low_send tr total post (i + 1) s (f + 1) i (Nat.lt_succ_self _)]
      rw [countP_sleep_if (fun ms => rfl)]
      simp [isSendAt]
  | cons p pre' ih =>
    intro c post i s f
    have hres : (pre' ++ c :: post).isEmpty = false := isEmpty_append_cons pre' c post
    have hpos : i + (p :: pre').length = (i + 1) + pre'.length := by
      simp only [List.length_cons]
      omega
    rw [hpos]
    have hneS : (i == (i + 1) + pre'.length) = false := by
      simp only [beq_eq_false_iff_ne, ne_eq]
      omega
    cases h : tr.sendError i with
    | none =>
      simp only [List.cons_append, campaignLoop, List.append_eq, h, hres, Bool.false_eq_true,
        if_false, List.singleton_append]
      simp only [List.countP_cons, List.countP_append, List.singleton_append]
      rw [ih c post (i + 1) (s + 1) f]
      simp [isSendAt, hneS]
    | some m =>
      simp only [List.cons_append, campaignLoop, List.append_eq, h, hres, Bool.false_eq_true,
        if_false, List.singleton_append]
      simp only [List.countP_cons, List.countP_append, List.singleton_append]
      rw [ih c post (i + 1) s (f + 1)]
      simp [isSendAt, hneS]

/-- In the trace of a loop run, the progress event of each processed contact
— carrying the contact's identity, 1-based position, the total, and the
success and failure counts accumulated over the contacts before it — sits
immediately before that contact's send action. -/
theorem campaignLoop_progress_send_adjacent (tr : Transport) (total : Nat) :
    ∀ (pre : List RawContact) (c : RawContact) (post : List RawContact) (i s f : Nat),
      ∃ k, (campaignLoop tr total i s f (pre ++ c :: post)).acts.get? k
            = some (Act.write (.progress (c.name.getD "") (c.email.getD "") (c.company.getD "")
                (i + pre.length + 1) total (s + succCnt tr i pre.length) (f + failCnt tr i pre.length)))
          ∧ (campaignLoop tr total i s f (pre ++ c :: post)).acts.get? (k + 1)
            = some (Act.send (i + pre.length) (c.email.getD "")) := by
  intro pre
  induction pre with
  | nil =>
    intro c post i s f
    simp only [List.nil_append, List.length_nil, Nat.add_zero]
    cases h : tr.sendError i with
    | none =>
      simp only [campaignLoop, h]
      exact ⟨0, rfl, rfl⟩
    | some m =>
      simp only [campaignLoop, h]
      exact ⟨0, rfl, rfl⟩
  | cons p pre' ih =>
    intro c post i s f
    have hres : (pre' ++ c :: post).isEmpty = false := isEmpty_append_cons pre' c post
    cases h : tr.sendError i with
    | none =>
      obtain ⟨k, hk1, hk2⟩ := ih c post (i + 1) (s + 1) f
      have e1 : i + (p :: pre').length + 1 = (i + 1) + pre'.length + 1 := by
        simp only [List.length_cons]
        omega
      have e2 : s + succCnt tr i (p :: pre').length = (s + 1) + succCnt tr (i + 1) pre'.length := by
        simp only [List.length_cons]
        rw [succCnt_shift tr i, if_pos h]
        omega
      have e3 : f + failCnt tr i (p :: pre').length = f + failCnt tr (i + 1) pre'.length := by
        simp only [List.length_cons]
        rw [failCnt_shift tr i, if_pos h]
        omega
      have e4 : i + (p :: pre').length = (i + 1) + pre'.length := by
        simp only [List.length_cons]
        omega
      rw [e1, e2, e3, e4]
      simp only [List.cons_append, campaignLoop, List.append_eq, h, hres, Bool.false_eq_true,
        if_false, List.singleton_append]
      exact ⟨k + 3, hk1, hk2⟩
    | some m =>
      obtain ⟨k, hk1, hk2⟩ := ih c post (i + 1) s (f + 1)
      have hcond : ¬(tr.sendError i = none) := by simp [h]
      have e1 : i + (p :: pre').length + 1 = (i + 1) + pre'.length + 1 := by
        simp only [List.length_cons]
        omega
      have e2 : s + succCnt tr i (p :: pre').length = s + succCnt tr (i + 1) pre'.length := by
        simp only [List.length_cons]
        rw [succCnt_shift tr i, if_neg hcond]
        omega
      have e3 : f + failCnt tr i (p :: pre').length = (f + 1) + failCnt tr (i + 1) pre'.length := by
        simp only [List.length_cons]
        rw [failCnt_shift tr i, if_neg hcond]
        omega
      have e4 : i + (p :: pre').length = (i + 1) + pre'.length := by
        simp only [List.length_cons]
        omega
      rw [e1, e2, e3, e4]
      simp only [List.cons_append, campaignLoop, List.append_eq, h, hres, Bool.false_eq_true,
        if_false, List.singleton_append]
      exact ⟨k + 4, hk1, hk2⟩

/-- C8: for every contact of the processed list — whether its send
eventually succeeds or fails — the loop's trace holds exactly one progress
event with that contact's 1-based position and exactly one send action with
its attempt index, and the progress event, carrying the contact's identity
fields, its 1-based position, the total count, and the success and fail
counts accumulated over the contacts processed before it, sits immediately
before that contact's send action. -/
theorem progress_emitted_before_each_send :
    ∀ (tr : Transport) (total : Nat) (pre : List RawContact) (c : RawContact)
      (post : List RawContact) (i s f : Nat),
      ((campaignLoop tr total i s f (pre ++ c :: post)).acts.countP
          (isProgressAt (i + pre.length + 1)) = 1)
      ∧ ((campaignLoop tr total i s f (pre ++ c :: post)).acts.countP
          (isSendAt (i + pre.length)) = 1)
      ∧ ∃ k, (campaignLoop tr total i s f (pre ++ c :: post)).acts.get? k
            = some (Act.write (.progress (c.name.getD "") (c.email.getD "") (c.company.getD "")
                (i + pre.length + 1) total (s + succCnt tr i pre.length)
                (f + failCnt tr i pre.length)))
          ∧ (campaignLoop tr total i s f (pre ++ c :: post)).acts.get? (k + 1)
            = some (Act.send (i + pre.length) (c.email.getD "")) :=
  fun tr total pre c post i s f =>
    ⟨campaignLoop_progress_once tr total pre c post i s f,
     campaignLoop_send_once tr total pre c post i s f,
     campaignLoop_progress_send_adjacent tr total pre c post i s f⟩
